import Mathlib

/-!
Verification of the Quizzy AI service (src/AI): page-accurate chunking
(`app/services/pdf_service.py`), page-range retrieval and quiz-response
parsing (`app/services/rag_service.py`), vector search
(`app/services/vector_service.py`) and webhook delivery
(`app/services/pdf_processing_worker.py`,
`app/services/quiz_processing_worker.py`).

Text is embedded as `List Char` (`Str`); Python dicts of page texts as
association lists `List (Nat × Str)`; the Chroma vector store as an
association list from collection name to collection state; fallible
Python code as `Except`.
-/

namespace Quizzy

/-- Text, embedded as a list of characters (Python `str`). -/
abbrev Str := List Char

/-- Python `str.strip()`: remove leading and trailing whitespace. -/
def pyStrip (s : Str) : Str :=
  ((s.dropWhile Char.isWhitespace).reverse.dropWhile Char.isWhitespace).reverse

/-- Python `str.lower()` (ASCII case folding suffices for the parsed markers). -/
def pyLower (s : Str) : Str := s.map Char.toLower

/-- Python `str.split(sep)` for a one-character separator:
`"".split(',') == [""]` and separators are not merged. -/
def pySplit (sep : Char) : Str → List Str
  | [] => [[]]
  | c :: cs =>
    if c = sep then [] :: pySplit sep cs
    else
      match pySplit sep cs with
      | [] => [[c]]
      | h :: t => (c :: h) :: t

/-- Python `str.isdigit()` (ASCII digits): nonempty and all digits. -/
def pyIsDigit (s : Str) : Bool := !s.isEmpty && s.all Char.isDigit

/-- Numeric value of a digit string (most significant first). -/
def digitsVal (s : Str) : Nat := s.foldl (fun a c => 10 * a + (c.toNat - 48)) 0

/-- Python `int(s)` on a string: strips whitespace, accepts an optional
sign followed by digits, raises (here: `none`) otherwise. -/
def pyIntOfStr (s : Str) : Option Int :=
  match pyStrip s with
  | '-' :: rest => if pyIsDigit rest then some (-(digitsVal rest : Int)) else none
  | '+' :: rest => if pyIsDigit rest then some (digitsVal rest : Int) else none
  | t => if pyIsDigit t then some (digitsVal t : Int) else none

/-- The text after the first `:` of a line (Python `line.split(':', 1)[1]`;
only used on lines known to contain a colon). -/
def afterFirstColon (s : Str) : Str := (s.dropWhile (fun c => c != ':')).tail

/-- Substring relation: `c` occurs contiguously inside `t`. -/
def SubstrOf (c t : Str) : Prop := ∃ u v, t = u ++ c ++ v

theorem substrOf_refl (t : Str) : SubstrOf t t := ⟨[], [], by simp⟩

theorem substrOf_take (t : Str) (n : Nat) : SubstrOf (t.take n) t :=
  ⟨[], t.drop n, by simp⟩

theorem substrOf_drop (t : Str) (n : Nat) : SubstrOf (t.drop n) t :=
  ⟨t.take n, [], by simp⟩

theorem substrOf_trans {a b c : Str} (h1 : SubstrOf a b) (h2 : SubstrOf b c) :
    SubstrOf a c := by
  obtain ⟨u, v, rfl⟩ := h1
  obtain ⟨u', v', rfl⟩ := h2
  exact ⟨u' ++ u, v ++ v', by simp⟩

/-- A metadata value stored in Chroma (integer or string). -/
inductive MetaVal where
  | mInt (i : Int)
  | mStr (s : Str)
deriving DecidableEq, Repr

/-- Python `int(v)` on a metadata value: identity on ints, string parse on
strings (`none` models the caught `ValueError`/`TypeError`). -/
def pyIntOfMetaVal : MetaVal → Option Int
  | .mInt i => some i
  | .mStr s => pyIntOfStr s

/-- Chunk metadata written by `PDFService.create_documents`
(pdf_service.py lines 104-113).  `pages` and `page_number` are optional so
that legacy chunks (comma-separated `pages` string, no `page_number`
field) are also represented. -/
structure DocMetadata where
  pdf_id : String
  chunk_id : String
  source : String
  pdf_name : String
  pages : Option Str
  page_number : Option MetaVal
  total_pages : Nat
  chunk_index_on_page : Option Nat
deriving DecidableEq, Repr

/-- A LangChain `Document`: chunk text plus metadata. -/
structure Document where
  page_content : Str
  metadata : DocMetadata
deriving DecidableEq, Repr

/-- Modelled from the spec: the text splitter used by the Chunker
(LangChain's `RecursiveCharacterTextSplitter(chunk_size=1000,
chunk_overlap=200)`, library code that is not part of this repository).
The spec describes it as splitting one page's text into fixed-target-size
chunks with overlap between consecutive chunks; here: windows of 1000
characters starting every 800 characters (fuel-structured so that it
computes by reduction). -/
def splitTextGo (fuel : Nat) (t : Str) : List Str :=
  match fuel with
  | 0 => [t]
  | fuel + 1 =>
    if t.length ≤ 1000 then [t]
    else t.take 1000 :: splitTextGo fuel (t.drop 800)

/-- Modelled from the spec: `text_splitter.split_text` with chunk size
1000 and overlap 200 (see `splitTextGo`). -/
def splitText (t : Str) : List Str := splitTextGo t.length t

theorem splitTextGo_substrOf (fuel : Nat) :
    ∀ (t : Str), ∀ c ∈ splitTextGo fuel t, SubstrOf c t := by
  induction fuel with
  | zero =>
    intro t c hc
    simp only [splitTextGo, List.mem_singleton] at hc
    exact hc ▸ substrOf_refl t
  | succ n ih =>
    intro t c hc
    simp only [splitTextGo] at hc
    split at hc
    · simp only [List.mem_singleton] at hc
      exact hc ▸ substrOf_refl t
    · rcases List.mem_cons.mp hc with h | h
      · exact h ▸ substrOf_take t 1000
      · exact substrOf_trans (ih _ c h) (substrOf_drop t 800)

theorem splitText_substrOf (t : Str) : ∀ c ∈ splitText t, SubstrOf c t :=
  splitTextGo_substrOf t.length t

/-- Errors raised by `PDFService` (as `ValueError`s in the source). -/
inductive PdfError where
  | noText
  | invalidRange
  | emptyRange (s e : Int)
deriving DecidableEq, Repr

/-- Python `enumerate` over the chunks of one page, building one
`Document` per chunk (pdf_service.py lines 101-115). -/
def enumChunks (f : Nat → Str → Document) : Nat → List Str → List Document
  | _, [] => []
  | i, c :: cs => f i c :: enumChunks f (i + 1) cs

theorem mem_enumChunks {f : Nat → Str → Document} :
    ∀ {i : Nat} {cs : List Str} {d : Document},
      d ∈ enumChunks f i cs → ∃ j c, c ∈ cs ∧ d = f j c := by
  intro i cs
  induction cs generalizing i with
  | nil => intro d h; simp [enumChunks] at h
  | cons c cs ih =>
    intro d h
    rcases List.mem_cons.mp h with h | h
    · exact ⟨i, c, List.mem_cons_self c cs, h⟩
    · obtain ⟨j, c', hc', hd⟩ := ih h
      exact ⟨j, c', List.mem_cons_of_mem c hc', hd⟩

/-- The `Document` built for chunk `i` of page `pageNum`
(pdf_service.py lines 102-114). -/
def mkChunkDocument (totalPages : Nat) (pdfId : String) (pdfName : Option String)
    (pageNum : Nat) (i : Nat) (chunk : Str) : Document :=
  { page_content := chunk,
    metadata :=
      { pdf_id := pdfId,
        chunk_id := toString pageNum ++ "_" ++ toString i,
        source := "pdf",
        pdf_name := pdfName.getD ("document_" ++ pdfId),
        pages := some (toString pageNum).toList,
        page_number := some (.mInt pageNum),
        total_pages := totalPages,
        chunk_index_on_page := some i } }

/-- `PDFService.create_documents` (pdf_service.py lines 85-118): raise if
the page map is empty, then chunk each non-blank page separately and tag
every chunk with that page's number. -/
def create_documents (pagesText : List (Nat × Str)) (pdfId : String)
    (pdfName : Option String) : Except PdfError (List Document) :=
  if pagesText.isEmpty then .error .noText
  else .ok (pagesText.flatMap (fun pt =>
    if (pyStrip pt.2).isEmpty then []
    else enumChunks (mkChunkDocument pagesText.length pdfId pdfName pt.1) 0
      (splitText pt.2)))

/-- The page filter of `PDFService.create_page_range_documents`
(pdf_service.py lines 128-131). -/
def filterPageRange (pagesText : List (Nat × Str)) (pageStart pageEnd : Int) :
    List (Nat × Str) :=
  pagesText.filter (fun pt => decide (pageStart ≤ (pt.1 : Int) ∧ (pt.1 : Int) ≤ pageEnd))

/-- `PDFService.create_page_range_documents` (pdf_service.py lines
120-136): reject an invalid range, then filter the page map and chunk the
remainder, rejecting an empty filtered map. -/
def create_page_range_documents (pagesText : List (Nat × Str)) (pdfId : String)
    (pageStart pageEnd : Int) (pdfName : Option String) :
    Except PdfError (List Document) :=
  if pageStart < 1 ∨ pageEnd < pageStart then .error .invalidRange
  else
    let filtered := filterPageRange pagesText pageStart pageEnd
    if filtered.isEmpty then .error (.emptyRange pageStart pageEnd)
    else create_documents filtered pdfId pdfName

/-- State of one Chroma collection: `ok docs` is a live collection holding
`docs` in ranked order (similarity ranking is the external vector index's
concern and is modelled as the stored order); `broken` is a collection
whose backend accesses raise, exercising the `except` branches. -/
inductive CollState where
  | ok (docs : List Document)
  | broken
deriving DecidableEq, Repr

/-- The Chroma persistent client: collection name → collection state. -/
abbrev Store := List (String × CollState)

/-- Collection lookup (`_collection_exists` + `get_collection`):
`none` means the collection does not exist. -/
def lookupStore (store : Store) (name : String) : Option CollState :=
  match store with
  | [] => none
  | e :: rest => if e.1 = name then some e.2 else lookupStore rest name

/-- `VectorService.add_documents` (vector_service.py lines 36-60): append
the documents to the PDF's collection, creating it when absent (batching
only splits the insertion, so it is modelled as one append).  Adding to a
`broken` collection raises in the source; the store is left unchanged. -/
def addDocuments (store : Store) (docs : List Document) (pdfId : String) : Store :=
  let name := "pdf_" ++ pdfId
  match lookupStore store name with
  | some (.ok existing) =>
      store.map (fun e => if e.1 = name then (e.1, .ok (existing ++ docs)) else e)
  | some .broken => store
  | none => store ++ [(name, .ok docs)]

/-- The legacy branch of page resolution (rag_service.py lines 351-363):
parse the comma-separated `pages` string, keeping the first
digit-only entry, or parse it as one integer when it has no comma. -/
def resolvePages (s : Str) : Option Int :=
  if s.isEmpty then none
  else if ',' ∈ s then
    match (pySplit ',' s).filterMap (fun p =>
      if pyIsDigit (pyStrip p) then some ((digitsVal (pyStrip p) : Int)) else none) with
    | [] => none
    | x :: _ => some x
  else pyIntOfStr (pyStrip s)

/-- Page resolution of one chunk (rag_service.py lines 341-363): consult
the current integer `page_number` field first and fall back to the legacy
`pages` string; `none` means the chunk's page cannot be resolved. -/
def resolvePageNumber (m : DocMetadata) : Option Int :=
  match m.page_number.bind pyIntOfMetaVal with
  | some i => some i
  | none => resolvePages (m.pages.getD [])

/-- `get_min_page`, the sort key of `_get_page_range_context`
(rag_service.py lines 287-306): like `resolvePageNumber` but taking the
minimum of a legacy page list and defaulting to 999. -/
def getMinPage (m : DocMetadata) : Int :=
  match m.page_number.bind pyIntOfMetaVal with
  | some i => i
  | none =>
    let s := m.pages.getD []
    if s.isEmpty then 999
    else if ',' ∈ s then
      match (pySplit ',' s).filterMap (fun p =>
        if pyIsDigit (pyStrip p) then some ((digitsVal (pyStrip p) : Int)) else none) with
      | [] => 999
      | x :: xs => xs.foldl min x
    else
      match pyIntOfStr (pyStrip s) with
      | some i => i
      | none => 999

/-- `RAGService._get_documents_by_page_range` (rag_service.py lines
319-381): return `[]` when the collection is missing (or any backend
access raises), otherwise keep exactly the chunks whose resolved page
falls within `[pageStart, pageEnd]`, skipping unresolvable chunks. -/
def getDocumentsByPageRange (store : Store) (pdfId : String)
    (pageStart pageEnd : Int) : List Document :=
  match lookupStore store ("pdf_" ++ pdfId) with
  | none => []
  | some .broken => []
  | some (.ok docs) =>
    docs.filter (fun d =>
      match resolvePageNumber d.metadata with
      | some p => decide (pageStart ≤ p ∧ p ≤ pageEnd)
      | none => false)

/-- Python `sep.join(parts)`. -/
def joinSep (sep : Str) : List Str → Str
  | [] => []
  | [x] => x
  | x :: y :: xs => x ++ sep ++ joinSep sep (y :: xs)

/-- Errors raised by `RAGService._get_page_range_context` (both are
`ValueError`s in the source, distinguished by their message).
`noContentInRange` is the "No content found in pages start-end" message
(rag_service.py line 284); `retrievalFailed` is the re-wrapped message of
line 317 (unreachable in this pure model). -/
inductive RagError where
  | noContentInRange (ps pe : Int)
  | retrievalFailed (ps pe : Int)
deriving DecidableEq, Repr

/-- `RAGService._get_page_range_context` (rag_service.py lines 276-317):
raise when the page-range filter returns nothing, otherwise sort the
chunks by `get_min_page` (Python's stable sort) and join their texts. -/
def getPageRangeContext (store : Store) (pdfId : String) (ps pe : Int) :
    Except RagError Str :=
  let filtered := getDocumentsByPageRange store pdfId ps pe
  if filtered.isEmpty then .error (.noContentInRange ps pe)
  else
    .ok (joinSep "\n\n".toList
      ((filtered.mergeSort (fun a b =>
        decide (getMinPage a.metadata ≤ getMinPage b.metadata))).map
        (fun d => d.page_content)))

/-- `VectorService.search_documents` (vector_service.py lines 62-84):
empty result when the collection does not exist (`none`) or when the
backend raises (`broken`); otherwise up to `k` chunks in ranked order. -/
def searchDocuments (store : Store) (query : String) (pdfId : String)
    (k : Nat) : List Document :=
  match lookupStore store ("pdf_" ++ pdfId) with
  | none => []
  | some .broken => []
  | some (.ok docs) => docs.take k

/-- `VectorService.search_multiple_pdfs` (vector_service.py lines
86-101): allocate `max(1, k // len(pdf_ids)) + 1` per document, query each
independently, concatenate in document order and truncate to `k`. -/
def searchMultiplePdfs (store : Store) (query : String)
    (pdfIds : List String) (k : Nat) : List Document :=
  let docsPerPdf := if pdfIds.isEmpty then k else max 1 (k / pdfIds.length)
  (pdfIds.flatMap (fun pid =>
    searchDocuments store query pid (docsPerPdf + 1))).take k

theorem lookupStore_append_of_none :
    ∀ (store : Store) (name : String) (st : CollState),
      lookupStore store name = none →
      lookupStore (store ++ [(name, st)]) name = some st := by
  intro store name st h
  induction store with
  | nil => simp [lookupStore]
  | cons e rest ih =>
    simp only [lookupStore] at h ⊢
    split at h
    · exact absurd h (by simp)
    · rw [if_neg (by assumption)] at *
      exact ih h

theorem pySplit_sep_append (sep : Char) :
    ∀ (ds rest : Str), sep ∉ ds →
      pySplit sep (ds ++ sep :: rest) = ds :: pySplit sep rest := by
  intro ds
  induction ds with
  | nil => intro rest _; simp [pySplit]
  | cons c ds ih =>
    intro rest h
    have hc : c ≠ sep := fun hcs => h (hcs ▸ List.mem_cons_self c ds)
    have hds : sep ∉ ds := fun hm => h (List.mem_cons_of_mem c hm)
    simp only [List.cons_append, pySplit, if_neg hc]
    rw [show ds.append (sep :: rest) = ds ++ sep :: rest from rfl, ih rest hds]

/-- Dissection of `create_documents` output shared by several claims:
every produced document is built by `mkChunkDocument` from a single page
of the input map and one chunk of that page's split. -/
theorem create_documents_mem {pagesText : List (Nat × Str)} {pdfId : String}
    {pdfName : Option String} {docs : List Document}
    (hok : create_documents pagesText pdfId pdfName = .ok docs)
    {d : Document} (hd : d ∈ docs) :
    ∃ (p : Nat) (t : Str) (j : Nat) (c : Str),
      (p, t) ∈ pagesText ∧ c ∈ splitText t ∧
      d = mkChunkDocument pagesText.length pdfId pdfName p j c := by
  unfold create_documents at hok
  split at hok
  · exact absurd hok (by simp)
  · simp only [Except.ok.injEq] at hok
    subst hok
    obtain ⟨pt, hpt, hmem⟩ := List.mem_flatMap.mp hd
    split at hmem
    · simp at hmem
    · obtain ⟨j, c, hc, rfl⟩ := mem_enumChunks hmem
      exact ⟨pt.1, pt.2, j, c, by simpa using hpt, hc, rfl⟩

/-- Claim C1: for every Page Text map, every chunk produced by
`create_documents` carries a `page_number` that is a key of the input map,
its text is a contiguous substring of that single page's text, and (being
cut from one page only) no chunk contains text drawn from two different
pages. -/
theorem chunking_page_accurate :
    ∀ (pagesText : List (Nat × Str)) (pdfId : String) (pdfName : Option String)
      (docs : List Document),
      create_documents pagesText pdfId pdfName = .ok docs →
      ∀ d ∈ docs, ∃ p t, (p, t) ∈ pagesText ∧
        d.metadata.page_number = some (.mInt p) ∧ SubstrOf d.page_content t := by
  intro pagesText pdfId pdfName docs hok d hd
  obtain ⟨p, t, j, c, hpt, hc, rfl⟩ := create_documents_mem hok hd
  exact ⟨p, t, hpt, rfl, splitText_substrOf t c hc⟩

theorem chunking_page_accurate_witness :
    create_documents [(1, "hello".toList)] "doc" none
        = .ok [mkChunkDocument 1 "doc" none 1 0 "hello".toList] ∧
      (∃ (p : Nat) (t : Str), (p, t) ∈ [(1, "hello".toList)] ∧
        (mkChunkDocument 1 "doc" none 1 0 "hello".toList).metadata.page_number
          = some (.mInt p) ∧
        SubstrOf (mkChunkDocument 1 "doc" none 1 0 "hello".toList).page_content t) :=
  ⟨by rfl,
    chunking_page_accurate [(1, "hello".toList)] "doc" none
      [mkChunkDocument 1 "doc" none 1 0 "hello".toList] (by rfl)
      (mkChunkDocument 1 "doc" none 1 0 "hello".toList) (by simp)⟩

/-- Claim C2: round-trip of page provenance.  Every chunk written by
`create_documents` and stored via `addDocuments` is resolved by the
page-range retrieval path to exactly the page it was created with (and is
returned by `getDocumentsByPageRange` for that page); resolution falls
back to the first value of the legacy comma-separated `pages` string when
the integer `page_number` field is absent; and retrieval only ever
returns chunks whose page resolves (unresolvable chunks are skipped). -/
theorem page_provenance_roundtrip :
    ∀ (pagesText : List (Nat × Str)) (pdfId : String) (pdfName : Option String)
      (docs : List Document) (store : Store),
      create_documents pagesText pdfId pdfName = .ok docs →
      lookupStore store ("pdf_" ++ pdfId) = none →
      (∀ d ∈ docs, ∃ p : Nat,
        d.metadata.page_number = some (.mInt p) ∧
        resolvePageNumber d.metadata = some (p : Int) ∧
        d ∈ getDocumentsByPageRange (addDocuments store docs pdfId) pdfId p p) ∧
      (∀ (m : DocMetadata) (ds rest : Str),
        m.page_number = none → m.pages = some (ds ++ ',' :: rest) →
        ',' ∉ ds → pyIsDigit (pyStrip ds) = true →
        resolvePageNumber m = some ((digitsVal (pyStrip ds) : Int))) ∧
      (∀ (store' : Store) (pid : String) (ps pe : Int),
        ∀ d ∈ getDocumentsByPageRange store' pid ps pe,
          ∃ q : Int, resolvePageNumber d.metadata = some q ∧ ps ≤ q ∧ q ≤ pe) := by
  intro pagesText pdfId pdfName docs store hok hfresh
  refine ⟨?_, ?_, ?_⟩
  · intro d hd
    obtain ⟨p, t, j, c, hpt, hc, rfl⟩ := create_documents_mem hok hd
    have hres : resolvePageNumber (mkChunkDocument pagesText.length pdfId pdfName p j c).metadata
        = some (p : Int) := by
      simp [resolvePageNumber, mkChunkDocument, pyIntOfMetaVal]
    refine ⟨p, rfl, hres, ?_⟩
    have hadd : addDocuments store docs pdfId = store ++ [("pdf_" ++ pdfId, .ok docs)] := by
      simp [addDocuments, hfresh]
    rw [hadd]
    unfold getDocumentsByPageRange
    rw [lookupStore_append_of_none store _ _ hfresh]
    refine List.mem_filter.mpr ⟨hd, ?_⟩
    rw [hres]
    simp
  · intro m ds rest h1 h2 h3 h4
    unfold resolvePageNumber
    rw [h1]
    simp only [Option.bind]
    unfold resolvePages
    rw [h2]
    simp only [Option.getD_some]
    rw [if_neg (by simp), if_pos (by simp)]
    rw [pySplit_sep_append ',' ds rest h3]
    simp [List.filterMap_cons, h4]
  · intro store' pid ps pe d hd
    unfold getDocumentsByPageRange at hd
    split at hd
    · simp at hd
    · simp at hd
    · obtain ⟨_, hpred⟩ := List.mem_filter.mp hd
      revert hpred
      cases hres : resolvePageNumber d.metadata with
      | none => simp
      | some q =>
        intro hpred
        simp only [decide_eq_true_eq] at hpred
        exact ⟨q, rfl, hpred.1, hpred.2⟩

/-- A chunk created on page 2, used as concrete round-trip data. -/
def sampleDoc2 : Document := mkChunkDocument 1 "d" none 2 0 "hi".toList

/-- A legacy-schema metadata record: no `page_number` field, a
comma-separated `pages` string. -/
def legacySample : DocMetadata :=
  { pdf_id := "L", chunk_id := "c", source := "pdf", pdf_name := "n",
    pages := some "3,7".toList, page_number := none, total_pages := 2,
    chunk_index_on_page := none }

theorem page_provenance_roundtrip_witness :
    (∃ p : Nat, sampleDoc2.metadata.page_number = some (.mInt p) ∧
      resolvePageNumber sampleDoc2.metadata = some (p : Int) ∧
      sampleDoc2 ∈ getDocumentsByPageRange (addDocuments [] [sampleDoc2] "d") "d" p p) ∧
    resolvePageNumber legacySample = some ((digitsVal (pyStrip "3".toList) : Int)) := by
  have h := page_provenance_roundtrip [(2, "hi".toList)] "d" none [sampleDoc2] []
    (by rfl) (by rfl)
  exact ⟨h.1 sampleDoc2 (by simp), h.2.1 legacySample "3".toList "7".toList rfl rfl
    (by decide) (by decide)⟩

/-- Claim C3 (amended): page-range retrieval reports both failure modes
with the same `NoContentInRange` error — when the document has no
collection at all the filtered set is empty and the very same error is
raised as when the collection exists but holds no chunk in range; no
distinct `CollectionNotFound` error exists on this path. -/
theorem page_range_failure_modes :
    ∀ (store : Store) (pdfId : String) (ps pe : Int),
      (lookupStore store ("pdf_" ++ pdfId) = none →
        getPageRangeContext store pdfId ps pe = .error (.noContentInRange ps pe)) ∧
      (getDocumentsByPageRange store pdfId ps pe = [] →
        getPageRangeContext store pdfId ps pe = .error (.noContentInRange ps pe)) := by
  intro store pdfId ps pe
  have h2 : getDocumentsByPageRange store pdfId ps pe = [] →
      getPageRangeContext store pdfId ps pe = .error (.noContentInRange ps pe) := by
    intro h
    unfold getPageRangeContext
    rw [h]
    rfl
  refine ⟨fun h => h2 ?_, h2⟩
  unfold getDocumentsByPageRange
  rw [h]

/-- A chunk created on page 5, outside the queried range `[1, 2]`. -/
def outOfRangeDoc : Document := mkChunkDocument 1 "x" none 5 0 ['z']

theorem page_range_failure_modes_counterexample :
    getPageRangeContext [] "x" 1 2 = .error (.noContentInRange 1 2) ∧
      getPageRangeContext [("pdf_x", .ok [outOfRangeDoc])] "x" 1 2
        = .error (.noContentInRange 1 2) := by
  exact ⟨by rfl, by rfl⟩

theorem page_range_failure_modes_witness :
    getPageRangeContext [("pdf_y", .ok [])] "y" 3 9
      = .error (.noContentInRange 3 9) :=
  (page_range_failure_modes [("pdf_y", .ok [])] "y" 3 9).2 (by rfl)

/-- Claim C8: single-document search on a document whose collection does
not exist returns `[]` and never raises (the source returns `[]` both
from the existence guard and from its `except` handler, modelled by the
`broken` state). -/
theorem search_missing_collection_empty :
    ∀ (store : Store) (query pdfId : String) (k : Nat),
      (lookupStore store ("pdf_" ++ pdfId) = none →
        searchDocuments store query pdfId k = []) ∧
      (lookupStore store ("pdf_" ++ pdfId) = some .broken →
        searchDocuments store query pdfId k = []) := by
  intro store query pdfId k
  constructor <;> intro h <;> simp [searchDocuments, h]

theorem search_missing_collection_empty_witness :
    searchDocuments [] "what is X" "nope" 4 = [] :=
  (search_missing_collection_empty [] "what is X" "nope" 4).1 (by rfl)

theorem flatMap_filter_ne_of_empty {f : String → List Document} {bad : String}
    (hf : f bad = []) : ∀ (l : List String),
    (l.filter (fun x => x != bad)).flatMap f = l.flatMap f := by
  intro l
  induction l with
  | nil => rfl
  | cons x rest ih =>
    by_cases hx : x = bad
    · subst hx
      simp [List.filter_cons, hf, ih]
    · simp [List.filter_cons, hx, ih]

/-- Claim C7: multi-document search allocates `max(1, k / n) + 1` results
per document (`n` the number of documents), concatenates per-document
results in document-iteration order and truncates to `k`; a document
whose search fails (modelled by a `broken` collection) contributes
nothing instead of failing the call; and in the `k = 8`, two-document
instance the result has at most 8 chunks and draws from both documents
whenever each collection has at least 4 chunks. -/
theorem multi_pdf_search_allocation :
    ∀ (store : Store) (query : String) (pdfIds : List String) (k : Nat),
      pdfIds ≠ [] →
      (searchMultiplePdfs store query pdfIds k).length ≤ k ∧
      searchMultiplePdfs store query pdfIds k
        = (pdfIds.flatMap (fun pid =>
            searchDocuments store query pid (max 1 (k / pdfIds.length) + 1))).take k ∧
      (∀ (bad : String), lookupStore store ("pdf_" ++ bad) = some .broken →
        searchMultiplePdfs store query pdfIds k
          = ((pdfIds.filter (fun pid => pid != bad)).flatMap (fun pid =>
              searchDocuments store query pid (max 1 (k / pdfIds.length) + 1))).take k) ∧
      (∀ (a b : String) (A B : List Document), pdfIds = [a, b] → k = 8 →
        lookupStore store ("pdf_" ++ a) = some (.ok A) →
        lookupStore store ("pdf_" ++ b) = some (.ok B) →
        4 ≤ A.length → 4 ≤ B.length →
        searchMultiplePdfs store query pdfIds k
            = A.take 5 ++ (B.take 5).take (8 - (A.take 5).length) ∧
          A.take 5 ≠ [] ∧ (B.take 5).take (8 - (A.take 5).length) ≠ [] ∧
          (∀ d ∈ A.take 5, d ∈ A) ∧
          (∀ d ∈ (B.take 5).take (8 - (A.take 5).length), d ∈ B)) := by
  intro store query pdfIds k hne
  have hmain : searchMultiplePdfs store query pdfIds k
      = (pdfIds.flatMap (fun pid =>
          searchDocuments store query pid (max 1 (k / pdfIds.length) + 1))).take k := by
    unfold searchMultiplePdfs
    rw [if_neg (by simpa using hne)]
  refine ⟨?_, hmain, ?_, ?_⟩
  · rw [hmain]; exact List.length_take_le k _
  · intro bad hbroken
    rw [hmain, flatMap_filter_ne_of_empty (by simp [searchDocuments, hbroken]) pdfIds]
  · intro a b A B heq hk hA hB hlenA hlenB
    subst heq; subst hk
    have hsa : searchDocuments store query a 5 = A.take 5 := by
      simp [searchDocuments, hA]
    have hsb : searchDocuments store query b 5 = B.take 5 := by
      simp [searchDocuments, hB]
    have hres : searchMultiplePdfs store query [a, b] 8
        = A.take 5 ++ (B.take 5).take (8 - (A.take 5).length) := by
      rw [hmain]
      simp only [List.flatMap_cons, List.flatMap_nil, List.append_nil,
        List.length_cons, List.length_nil]
      norm_num
      rw [hsa, hsb, List.take_append_eq_append_take,
        List.take_of_length_le (le_trans (List.length_take_le 5 A) (by norm_num))]
      simp [List.length_take]
    have hApos : 0 < (A.take 5).length := by
      rw [List.length_take]; omega
    have hBpos : 0 < ((B.take 5).take (8 - (A.take 5).length)).length := by
      simp only [List.length_take]
      omega
    exact ⟨hres, List.ne_nil_of_length_pos hApos, List.ne_nil_of_length_pos hBpos,
      fun d hd => List.take_subset 5 A hd,
      fun d hd => List.take_subset 5 B (List.take_subset _ _ hd)⟩

/-- A one-character chunk on page `p` of document `a`, sample search data. -/
def docA (p : Nat) : Document := mkChunkDocument 4 "a" none p 0 ['a']

/-- A one-character chunk on page `p` of document `b`, sample search data. -/
def docB (p : Nat) : Document := mkChunkDocument 4 "b" none p 0 ['b']

/-- A two-collection store with four chunks per document. -/
def storeTwo : Store :=
  [("pdf_a", .ok [docA 1, docA 2, docA 3, docA 4]),
   ("pdf_b", .ok [docB 1, docB 2, docB 3, docB 4])]

theorem multi_pdf_search_allocation_witness :
    (searchMultiplePdfs storeTwo "q" ["a", "b"] 8).length ≤ 8 ∧
      [docA 1, docA 2, docA 3, docA 4].take 5 ≠ [] ∧
      ([docB 1, docB 2, docB 3, docB 4].take 5).take
          (8 - ([docA 1, docA 2, docA 3, docA 4].take 5).length) ≠ [] := by
  have h := multi_pdf_search_allocation storeTwo "q" ["a", "b"] 8 (by simp)
  have h4 := h.2.2.2 "a" "b" [docA 1, docA 2, docA 3, docA 4]
    [docB 1, docB 2, docB 3, docB 4] rfl rfl (by rfl) (by rfl) (by decide) (by decide)
  exact ⟨h.1, h4.2.1, h4.2.2.1⟩

/-- Claim C9: `create_page_range_documents` fails with `InvalidRange`
whenever `start < 1` or `end < start`, for every page map (so before any
filtering or chunking happens), and fails with `EmptyRange` whenever the
range is valid but the filtered page map is empty. -/
theorem page_range_chunking_validation :
    ∀ (pagesText : List (Nat × Str)) (pdfId : String) (ps pe : Int)
      (pdfName : Option String),
      ((ps < 1 ∨ pe < ps) →
        create_page_range_documents pagesText pdfId ps pe pdfName
          = .error .invalidRange) ∧
      (¬(ps < 1 ∨ pe < ps) → filterPageRange pagesText ps pe = [] →
        create_page_range_documents pagesText pdfId ps pe pdfName
          = .error (.emptyRange ps pe)) := by
  intro pagesText pdfId ps pe pdfName
  constructor
  · intro h
    simp only [create_page_range_documents, if_pos h]
  · intro h hempty
    simp only [create_page_range_documents, if_neg h, hempty]
    simp

theorem page_range_chunking_validation_witness :
    create_page_range_documents [(1, ['a'])] "d" 0 3 none = .error .invalidRange ∧
      create_page_range_documents [(5, ['a'])] "d" 1 2 none
        = .error (.emptyRange 1 2) :=
  ⟨(page_range_chunking_validation [(1, ['a'])] "d" 0 3 none).1 (by decide),
    (page_range_chunking_validation [(5, ['a'])] "d" 1 2 none).2 (by decide) (by rfl)⟩

/-- `QuizQuestion` (models/schemas.py lines 20-24).  The schema constrains
`options` to be a list of strings; it does not constrain its length. -/
structure QuizQuestion where
  question : Str
  options : List Str
  correct_answer : Str
  explanation : Option Str
deriving DecidableEq, Repr

/-- Python truthiness of an optional string (`None` and `""` are falsy). -/
def pyTruthy : Option Str → Bool
  | some s => !s.isEmpty
  | none => false

/-- Python `x or default` on an optional string. -/
def pyOrDefault (o : Option Str) (d : Str) : Str :=
  match o with
  | some s => if s.isEmpty then d else s
  | none => d

/-- Python `line.startswith((p1, p2, ...))`. -/
def startsWithAny (ps : List Str) (s : Str) : Bool :=
  ps.any (fun p => p.isPrefixOf s)

/-- Python `line.endswith('?')`. -/
def endsWithQmark (s : Str) : Bool := s.getLast? == some '?'

/-- The option markers `('A)', 'B)', 'C)', 'D)')` of the fallback parser. -/
def optionMarkers : List Str := ["A)".toList, "B)".toList, "C)".toList, "D)".toList]

/-- The correct-answer markers `('correct:', 'answer:', 'correct answer:')`. -/
def answerMarkers : List Str :=
  ["correct:".toList, "answer:".toList, "correct answer:".toList]

/-- The explanation markers `('explanation:', 'because:')`. -/
def explanationMarkers : List Str := ["explanation:".toList, "because:".toList]

/-- The default explanation `"No explanation provided"`. -/
def noExplanation : Str := "No explanation provided".toList

/-- The scanner state of `_parse_fallback_quiz` (rag_service.py lines
503-506): current question, options, answer and explanation plus the
accumulated questions. -/
structure FBState where
  q : Option Str
  opts : List Str
  ans : Option Str
  expl : Option Str
  acc : List QuizQuestion
deriving DecidableEq, Repr

/-- Emission of the current question (rag_service.py lines 515-521 and
541-547): appended only when it has a question line, at least one option
and a truthy correct answer. -/
def flushState (st : FBState) : List QuizQuestion :=
  if pyTruthy st.q && !st.opts.isEmpty && pyTruthy st.ans then
    st.acc ++ [{ question := st.q.getD [],
                 options := st.opts,
                 correct_answer := st.ans.getD [],
                 explanation := some (pyOrDefault st.expl noExplanation) }]
  else st.acc

/-- The branch dispatch of the line loop of `_parse_fallback_quiz`
(rag_service.py lines 513-538), on the already-stripped line. -/
def processStrippedLine (st : FBState) (line : Str) : FBState :=
  if line.isEmpty then st
  else if endsWithQmark line && !startsWithAny optionMarkers line then
    { q := some line, opts := [], ans := none, expl := none, acc := flushState st }
  else if startsWithAny optionMarkers line then
    { st with opts := st.opts ++ [line] }
  else if startsWithAny answerMarkers (pyLower line) then
    { st with ans := some (pyStrip (afterFirstColon line)) }
  else if startsWithAny explanationMarkers (pyLower line) then
    { st with expl := some (pyStrip (afterFirstColon line)) }
  else st

/-- One iteration of the line loop of `_parse_fallback_quiz`
(rag_service.py lines 508-509 strip the raw line first). -/
def processLine (st : FBState) (rawLine : Str) : FBState :=
  processStrippedLine st (pyStrip rawLine)

/-- The initial scanner state (all `None`, no accumulated questions). -/
def initFBState : FBState := ⟨none, [], none, none, []⟩

/-- The questions collected by the line scanner of `_parse_fallback_quiz`
(before the placeholder fallback and the truncation). -/
def parsedQuestions (content : Str) : List QuizQuestion :=
  flushState ((pySplit '\n' (pyStrip content)).foldl processLine initFBState)

/-- The synthetic placeholder question of `_parse_fallback_quiz`
(rag_service.py lines 551-556). -/
def placeholderQuestion : QuizQuestion :=
  { question := "What is the main topic discussed in the provided content?".toList,
    options := ["A) Topic A".toList, "B) Topic B".toList, "C) Topic C".toList,
                "D) Topic D".toList],
    correct_answer := "A) Topic A".toList,
    explanation := some "This is a fallback question due to parsing issues.".toList }

/-- The placeholder returned when the scanner itself raises
(rag_service.py lines 563-568; unreachable in this pure model). -/
def exceptionPlaceholderQuestion : QuizQuestion :=
  { question := "What information can be found in the provided content?".toList,
    options := ["A) Various topics".toList, "B) No information".toList,
                "C) Specific details".toList, "D) General concepts".toList],
    correct_answer := "A) Various topics".toList,
    explanation := some "This is a fallback question due to processing issues.".toList }

/-- `RAGService._parse_fallback_quiz` (rag_service.py lines 498-568): scan
the lines, fall back to one placeholder question when nothing parsed, and
truncate to `numQuestions`. -/
def parse_fallback_quiz (content : Str) (numQuestions : Nat) : List QuizQuestion :=
  (if (parsedQuestions content).isEmpty then [placeholderQuestion]
   else parsedQuestions content).take numQuestions

/-- Outcome of the strict decode stage of `generate_quiz` (rag_service.py
lines 243-253): `json.loads` plus the pydantic `QuizQuestion(**q)`
constructions are Python library code, not part of this repository, so
the stage is embedded as its outcome.  `failure` is a raised
`JSONDecodeError`/`KeyError`/`TypeError` (the caught tuple, line 253);
`decoded qs` is a successful decode of the `"questions"` list. -/
inductive StrictDecode where
  | failure
  | decoded (qs : List QuizQuestion)
deriving DecidableEq, Repr

/-- The error exit of `generate_quiz`: the `ValueError("No questions
generated")` of rag_service.py line 249, which is not in the caught
tuple of line 253 and therefore propagates (re-wrapped by line 260). -/
inductive QuizError where
  | noQuestions
deriving DecidableEq, Repr

/-- The response handling of `RAGService.generate_quiz` (rag_service.py
lines 243-256): a successfully decoded but empty questions list raises;
a failed strict decode falls back to `parse_fallback_quiz`. -/
def generate_quiz_parse (raw : Str) (decode : StrictDecode) (numQuestions : Nat) :
    Except QuizError (List QuizQuestion) :=
  match decode with
  | .decoded qs => if qs.isEmpty then .error .noQuestions else .ok qs
  | .failure => .ok (parse_fallback_quiz raw numQuestions)

/-- A question is well-formed for emission: at least one option and a
nonempty correct answer. -/
def goodQuestion (q : QuizQuestion) : Prop :=
  q.options ≠ [] ∧ q.correct_answer ≠ []

theorem pyTruthy_getD {o : Option Str} (h : pyTruthy o = true) : o.getD [] ≠ [] := by
  cases o with
  | none => simp [pyTruthy] at h
  | some s =>
    simp only [pyTruthy, Bool.not_eq_true'] at h
    simpa using h

theorem flushState_good {st : FBState} (h : ∀ q ∈ st.acc, goodQuestion q) :
    ∀ q ∈ flushState st, goodQuestion q := by
  unfold flushState
  split
  · next hg =>
    intro q hq
    rcases List.mem_append.mp hq with hq | hq
    · exact h q hq
    · simp only [List.mem_singleton] at hq
      subst hq
      simp only [Bool.and_eq_true] at hg
      refine ⟨?_, pyTruthy_getD hg.2⟩
      simpa using hg.1.2
  · exact h

theorem processLine_good {st : FBState} (line : Str)
    (h : ∀ q ∈ st.acc, goodQuestion q) :
    ∀ q ∈ (processLine st line).acc, goodQuestion q := by
  unfold processLine processStrippedLine
  split
  · exact h
  · split
    · exact flushState_good h
    · split
      · exact h
      · split
        · exact h
        · split
          · exact h
          · exact h

theorem foldl_processLine_good :
    ∀ (lines : List Str) (st : FBState), (∀ q ∈ st.acc, goodQuestion q) →
      ∀ q ∈ (lines.foldl processLine st).acc, goodQuestion q := by
  intro lines
  induction lines with
  | nil => intro st h; exact h
  | cons l ls ih =>
    intro st h
    exact ih (processLine st l) (processLine_good l h)

theorem parsedQuestions_good (content : Str) :
    ∀ q ∈ parsedQuestions content, goodQuestion q :=
  flushState_good (foldl_processLine_good _ initFBState (by simp [initFBState]))

theorem parse_fallback_quiz_length (content : Str) (n : Nat) (hn : 1 ≤ n) :
    1 ≤ (parse_fallback_quiz content n).length ∧
      (parse_fallback_quiz content n).length ≤ n := by
  unfold parse_fallback_quiz
  split
  · simp only [List.length_take, List.length_singleton]
    omega
  · next hne =>
    have hpos : 0 < (parsedQuestions content).length :=
      List.length_pos.mpr (by simpa using hne)
    simp only [List.length_take]
    omega

theorem parse_fallback_quiz_sources (content : Str) (n : Nat) :
    ∀ q ∈ parse_fallback_quiz content n,
      q = placeholderQuestion ∨ goodQuestion q := by
  intro q hq
  unfold parse_fallback_quiz at hq
  have hq' := List.take_subset n _ hq
  split at hq'
  · left; simpa using hq'
  · right; exact parsedQuestions_good content q hq'

theorem parse_fallback_quiz_of_empty {content : Str} {n : Nat}
    (h : parsedQuestions content = []) (hn : 1 ≤ n) :
    parse_fallback_quiz content n = [placeholderQuestion] := by
  unfold parse_fallback_quiz
  rw [if_pos (by simp [h])]
  exact List.take_of_length_le (by simpa using hn)

/-- Claim C10: for every response text and `numQuestions ≥ 1`,
`_parse_fallback_quiz` returns between 1 and `numQuestions` questions
(parsed questions are truncated to `numQuestions`); every returned
question is either the synthetic placeholder or was emitted with at least
one option and a nonempty correct answer; and when the scanner parses
nothing, exactly one synthetic placeholder question is returned. -/
theorem fallback_parser_bounds :
    ∀ (content : Str) (n : Nat), 1 ≤ n →
      (1 ≤ (parse_fallback_quiz content n).length ∧
        (parse_fallback_quiz content n).length ≤ n) ∧
      (∀ q ∈ parse_fallback_quiz content n,
        q = placeholderQuestion ∨ (q.options ≠ [] ∧ q.correct_answer ≠ [])) ∧
      (parsedQuestions content = [] →
        parse_fallback_quiz content n = [placeholderQuestion]) :=
  fun content n hn =>
    ⟨parse_fallback_quiz_length content n hn,
     parse_fallback_quiz_sources content n,
     fun h => parse_fallback_quiz_of_empty h hn⟩

theorem fallback_parser_bounds_witness :
    (1 ≤ (parse_fallback_quiz "no quiz here".toList 3).length ∧
      (parse_fallback_quiz "no quiz here".toList 3).length ≤ 3) ∧
    (parsedQuestions "no quiz here".toList = [] →
      parse_fallback_quiz "no quiz here".toList 3 = [placeholderQuestion]) := by
  have h := fallback_parser_bounds "no quiz here".toList 3 (by decide)
  exact ⟨h.1, h.2.2⟩

/-- Claim C4 (amended): when the strict JSON decode fails (every non-JSON
completion response), `generate_quiz` returns between 1 and
`num_questions` questions — exactly one synthetic placeholder when the
fallback parser yields nothing — and never zero; but when the strict
decode succeeds with an empty questions list, `generate_quiz` raises
(`ValueError("No questions generated")`, re-wrapped) instead of
returning a placeholder. -/
theorem quiz_generation_fallback :
    ∀ (raw : Str) (n : Nat), 1 ≤ n →
      (∃ qs, generate_quiz_parse raw .failure n = .ok qs ∧
        1 ≤ qs.length ∧ qs.length ≤ n ∧
        (parsedQuestions raw = [] → qs = [placeholderQuestion])) ∧
      (∀ (raw' : Str) (n' : Nat),
        generate_quiz_parse raw' (.decoded []) n' = .error .noQuestions) := by
  intro raw n hn
  refine ⟨⟨parse_fallback_quiz raw n, rfl,
    (parse_fallback_quiz_length raw n hn).1,
    (parse_fallback_quiz_length raw n hn).2,
    fun h => parse_fallback_quiz_of_empty h hn⟩, fun raw' n' => rfl⟩

theorem quiz_generation_fallback_witness :
    (∃ qs, generate_quiz_parse "not json at all".toList .failure 5 = .ok qs ∧
      1 ≤ qs.length ∧ qs.length ≤ 5 ∧
      (parsedQuestions "not json at all".toList = [] →
        qs = [placeholderQuestion])) ∧
    (∀ (raw' : Str) (n' : Nat),
      generate_quiz_parse raw' (.decoded []) n' = .error .noQuestions) :=
  quiz_generation_fallback "not json at all".toList 5 (by decide)

theorem quiz_generation_fallback_counterexample :
    generate_quiz_parse "{}".toList (.decoded []) 5 = .error .noQuestions := by
  rfl

/-- A completion response that the fallback parser accepts with a single
option line: one question line, one option, one correct-answer line. -/
def singleOptionResponse : Str := "Q?\nA) x\nCorrect: A".toList

/-- The question the fallback parser emits for `singleOptionResponse`:
it has exactly one option, not four. -/
def singleOptionQuestion : QuizQuestion :=
  { question := "Q?".toList,
    options := ["A) x".toList],
    correct_answer := "A".toList,
    explanation := some noExplanation }

theorem quiz_four_options_counterexample :
    generate_quiz_parse singleOptionResponse .failure 5
        = .ok [singleOptionQuestion] ∧
      singleOptionQuestion.options.length = 1 := by
  exact ⟨by rfl, by rfl⟩

/-- Claim C5 (amended): every question returned by the fallback parser
has at least one answer option (the emission guard requires a nonempty
option list, but does not require exactly four), and the two synthetic
placeholder questions have exactly four options; an exactly-four count is
not enforced for parsed questions. -/
theorem quiz_option_count :
    ∀ (content : Str) (n : Nat),
      (∀ q ∈ parse_fallback_quiz content n, 1 ≤ q.options.length) ∧
      placeholderQuestion.options.length = 4 ∧
      exceptionPlaceholderQuestion.options.length = 4 := by
  intro content n
  refine ⟨?_, by rfl, by rfl⟩
  intro q hq
  rcases parse_fallback_quiz_sources content n q hq with h | h
  · subst h; exact by decide
  · exact List.length_pos.mpr h.1

theorem quiz_option_count_witness :
    1 ≤ singleOptionQuestion.options.length ∧
      placeholderQuestion.options.length = 4 :=
  ⟨(quiz_option_count singleOptionResponse 5).1 singleOptionQuestion (by decide),
    (quiz_option_count [] 1).2.1⟩

/-- Outcome of one webhook delivery attempt (pdf_processing_worker.py
lines 152-171 / quiz_processing_worker.py lines 174-193): an HTTP
response with a status code, or one of the caught exceptions. -/
inductive AttemptResult where
  | response (status : Nat)
  | timeout
  | connectError
  | otherError
deriving DecidableEq, Repr

/-- An attempt delivers iff the response status is exactly 200
(`if response.status_code == 200: return`); every exception and every
other status falls through to the retry path. -/
def isDelivered : AttemptResult → Bool
  | .response s => s == 200
  | _ => false

/-- Observable result of `_send_webhook_notification`: number of attempts
made, the waits (in seconds) slept between consecutive attempts, and
whether delivery succeeded.  The function itself returns `None` and
swallows all failures, so this trace is its only effect. -/
structure WebhookTrace where
  attempts : Nat
  waits : List Nat
  delivered : Bool
deriving DecidableEq, Repr

/-- The retry loop `for attempt in range(3)` (pdf_processing_worker.py
lines 151-178): return on a 200 response, otherwise sleep `2 ** attempt`
seconds when `attempt < max_retries - 1` and try again. -/
def webhookGo (outcomes : Nat → AttemptResult) (fuel i : Nat)
    (waits : List Nat) : WebhookTrace :=
  match fuel with
  | 0 => ⟨i, waits, false⟩
  | fuel + 1 =>
    if isDelivered (outcomes i) then ⟨i + 1, waits, true⟩
    else if i + 1 < 3 then webhookGo outcomes fuel (i + 1) (waits ++ [2 ^ i])
    else ⟨i + 1, waits, false⟩

/-- `_send_webhook_notification` (pdf_processing_worker.py lines 109-181;
quiz_processing_worker.py lines 128-203 is the same loop keyed by exam
id): run the retry loop with `max_retries = 3`, starting at attempt 0. -/
def send_webhook_notification (outcomes : Nat → AttemptResult) : WebhookTrace :=
  webhookGo outcomes 3 0 []

/-- A finished job together with its webhook delivery trace. -/
structure JobReport where
  succeeded : Bool
  trace : WebhookTrace
deriving DecidableEq, Repr

/-- The worker's completion step (pdf_processing_worker.py lines 91-103
and 52-61): the job's own outcome is fixed before the notification is
sent, and `_send_webhook_notification` swallows every delivery failure,
so the report's `succeeded` flag cannot depend on the trace. -/
def finishJobWithWebhook (succeeded : Bool)
    (outcomes : Nat → AttemptResult) : JobReport :=
  { succeeded := succeeded, trace := send_webhook_notification outcomes }

/-- A retry-triggering attempt outcome named by the claim: timeout,
connection failure, or a non-2xx response. -/
def retryTrigger (r : AttemptResult) : Prop :=
  r = .timeout ∨ r = .connectError ∨
    (∃ s, r = .response s ∧ ¬(200 ≤ s ∧ s < 300))

theorem retryTrigger_not_delivered {r : AttemptResult} (h : retryTrigger r) :
    isDelivered r = false := by
  rcases h with h | h | ⟨s, rfl, hs⟩
  · subst h; rfl
  · subst h; rfl
  · simp only [isDelivered, beq_eq_false_iff_ne, ne_eq]
    omega

/-- Full case analysis of the three-attempt loop. -/
theorem webhook_character (outcomes : Nat → AttemptResult) :
    send_webhook_notification outcomes =
      if isDelivered (outcomes 0) then ⟨1, [], true⟩
      else if isDelivered (outcomes 1) then ⟨2, [1], true⟩
      else if isDelivered (outcomes 2) then ⟨3, [1, 2], true⟩
      else ⟨3, [1, 2], false⟩ := by
  cases h0 : isDelivered (outcomes 0) <;>
    cases h1 : isDelivered (outcomes 1) <;>
    cases h2 : isDelivered (outcomes 2) <;>
      simp [send_webhook_notification, webhookGo, h0, h1, h2]

/-- Claim C6: webhook delivery makes at most 3 attempts (never a 4th);
the waits slept between consecutive attempts follow the exponential
backoff schedule 1s, 2s, 4s (`2 ** attempt`) and are strictly
increasing; timeout, connection failure and non-2xx responses each
trigger a retry while more attempts remain; and when every attempt fails
the failure is swallowed into the returned trace — the originating job's
outcome is unchanged by webhook delivery failure. -/
theorem webhook_retry_policy :
    ∀ (outcomes : Nat → AttemptResult),
      (send_webhook_notification outcomes).attempts ≤ 3 ∧
      (send_webhook_notification outcomes).waits
        = [1, 2, 4].take ((send_webhook_notification outcomes).attempts - 1) ∧
      List.Chain' (· < ·) (send_webhook_notification outcomes).waits ∧
      (∀ i, i + 1 < 3 → i < (send_webhook_notification outcomes).attempts →
        retryTrigger (outcomes i) →
        i + 1 < (send_webhook_notification outcomes).attempts) ∧
      ((∀ i < 3, isDelivered (outcomes i) = false) →
        send_webhook_notification outcomes = ⟨3, [1, 2], false⟩) ∧
      (∀ b, (finishJobWithWebhook b outcomes).succeeded = b) := by
  intro outcomes
  have hch := webhook_character outcomes
  cases h0 : isDelivered (outcomes 0) with
  | true =>
    simp only [h0, eq_self_iff_true, if_true] at hch
    refine ⟨by simp [hch], by simp [hch], by simp [hch], ?_, ?_,
      fun b => by simp [finishJobWithWebhook]⟩
    · intro i h3 hi htrig
      simp only [hch] at hi
      have hi0 : i = 0 := by omega
      subst hi0
      exact absurd h0 (by simp [retryTrigger_not_delivered htrig])
    · intro hall
      exact absurd h0 (by simp [hall 0 (by omega)])
  | false =>
    simp only [h0, Bool.false_eq_true, if_false] at hch
    cases h1 : isDelivered (outcomes 1) with
    | true =>
      simp only [h1, eq_self_iff_true, if_true] at hch
      refine ⟨by simp [hch], by simp [hch], by simp [hch], ?_, ?_,
        fun b => by simp [finishJobWithWebhook]⟩
      · intro i h3 hi htrig
        simp only [hch] at hi ⊢
        have hi01 : i = 0 ∨ i = 1 := by omega
        rcases hi01 with rfl | rfl
        · omega
        · exact absurd h1 (by simp [retryTrigger_not_delivered htrig])
      · intro hall
        exact absurd h1 (by simp [hall 1 (by omega)])
    | false =>
      simp only [h1, Bool.false_eq_true, if_false] at hch
      cases h2 : isDelivered (outcomes 2) with
      | true =>
        simp only [h2, eq_self_iff_true, if_true] at hch
        refine ⟨by simp [hch], by simp [hch],
          by rw [hch]; norm_num [List.chain'_cons], ?_, ?_,
          fun b => by simp [finishJobWithWebhook]⟩
        · intro i h3 hi htrig
          simp only [hch]
          omega
        · intro hall
          exact absurd h2 (by simp [hall 2 (by omega)])
      | false =>
        simp only [h2, Bool.false_eq_true, if_false] at hch
        refine ⟨by simp [hch], by simp [hch],
          by rw [hch]; norm_num [List.chain'_cons], ?_, fun _ => hch,
          fun b => by simp [finishJobWithWebhook]⟩
        intro i h3 hi htrig
        simp only [hch]
        omega

theorem webhook_retry_policy_witness :
    (send_webhook_notification (fun _ => .timeout)).attempts ≤ 3 ∧
      0 + 1 < (send_webhook_notification (fun _ => .timeout)).attempts := by
  have h := webhook_retry_policy (fun _ => .timeout)
  exact ⟨h.1, h.2.2.2.1 0 (by omega) (by decide) (Or.inl rfl)⟩

end Quizzy
